import Mathlib

/-!
Shallow embedding of the dispatch decision engine and job materialization
pipeline of `pkg/launcher/job/job_launcher.go` (jx-git-operator).

External collaborators (the Kubernetes job store, the file system, the
yaml loader, the command runner and the name normalizer from jx-helpers)
are modelled as an explicit environment of pure functions, and every
outward call (listing jobs, reading the template file, running a command,
creating a job) is recorded in an effect trace so that properties such as
"the runner is never invoked" or "at most one job is created" can be
stated about a dispatch cycle.
-/

namespace JxGitOperator

/-- Modelled from the spec: the constant "managed-by this system" marker key
(`constants.DefaultSelectorKey`); the constants package is not among the
provided sources. -/
def DefaultSelectorKey : String := "git-operator.jenkins.io/kind"

/-- Modelled from the spec: the constant "managed-by this system" marker value
(`constants.DefaultSelectorValue`); the constants package is not among the
provided sources. -/
def DefaultSelectorValue : String := "git-operator"

/-- Modelled from the spec: the fixed label key under which the normalized
repository name is stored (`launcher.RepositoryLabelKey`); the launcher
package is not among the provided sources. -/
def RepositoryLabelKey : String := "git-operator.jenkins.io/repository"

/-- Modelled from the spec: the fixed label key under which the normalized
commit id is stored (`launcher.CommitShaLabelKey`); the launcher package is
not among the provided sources. -/
def CommitShaLabelKey : String := "git-operator.jenkins.io/commit-sha"

/-- Status counters of a `batch/v1` Job: `Succeeded` and `Failed` pod counts
(Go `int32`; only comparison with zero matters here). -/
structure JobStatus where
  succeeded : Int
  failed : Int
deriving DecidableEq, Repr

/-- The slice of a Kubernetes `batch/v1` Job the launcher reads and writes:
its name, its labels (a Go `map[string]string`, modelled as an association
list queried by `getLabel` and updated by `setLabel`), its status counters,
and an opaque payload standing for the rest of the object (pod template
spec and so on), which the launcher never touches. -/
structure Job where
  name : String
  labels : List (String × String)
  status : JobStatus
  payload : String
deriving DecidableEq, Repr

/-- Go map read `m[key]`: the value stored under `key`, or the zero value
`""` when the key is absent. -/
def getLabel (labels : List (String × String)) (key : String) : String :=
  match labels.find? (fun p => p.1 == key) with
  | some p => p.2
  | none => ""

/-- Go map write `m[key] = value`: afterwards `key` maps to `value` and every
other key keeps its binding. -/
def setLabel (labels : List (String × String)) (key value : String) : List (String × String) :=
  (key, value) :: labels.filter (fun p => !(p.1 == key))

/-- Repository reference from the trigger: `opts.Repository` with fields
`Name` and `Namespace` (the namespace may be empty, meaning "use the
launcher's namespace"). -/
structure Repository where
  name : String
  ns : String
deriving DecidableEq, Repr

/-- Trigger input `launcher.LaunchOptions`: repository identity, commit sha,
local checkout directory and the flag disabling the auxiliary resource
apply step. -/
structure LaunchOptions where
  repository : Repository
  gitSHA : String
  dir : String
  noResourceApply : Bool
deriving DecidableEq, Repr

/-- Configuration the launcher `client` is constructed with: its default
namespace `ns` and the base label `selector`. -/
structure ClientCfg where
  ns : String
  selector : String
deriving DecidableEq, Repr

/-- External command invocation (`cmdrunner.Command`): a command name and its
argument list. -/
structure Command where
  name : String
  args : List String
deriving DecidableEq, Repr

/-- Outcome of the job-store list call: Kubernetes distinguishes a "not
found" error (`apierrors.IsNotFound`) from every other failure. -/
inductive ListErr where
  | notFound : ListErr
  | other (msg : String) : ListErr
deriving DecidableEq, Repr

/-- Error results of a dispatch cycle, one constructor per distinct
`errors.Wrapf` / `errors.Errorf` site in `Launch` and `startNewJob`, carrying
the same diagnostic data the Go error message carries. -/
inductive LaunchErr where
  | listFailed (ns selector msg : String) : LaunchErr
  | dirCheckFailed (folder msg : String) : LaunchErr
  | fileCheckFailed (file repo msg : String) : LaunchErr
  | notConfigured (repo file : String) : LaunchErr
  | loadFailed (file repo msg : String) : LaunchErr
  | resourcesDirCheckFailed (dir repo msg : String) : LaunchErr
  | absFailed (dir msg : String) : LaunchErr
  | applyFailed (dir msg : String) : LaunchErr
  | createFailed (name ns msg : String) : LaunchErr
deriving DecidableEq, Repr

/-- Observable calls a dispatch cycle makes on its external collaborators. -/
inductive Effect where
  | listedJobs (ns selector : String) : Effect
  | loadedFile (file : String) : Effect
  | ranCommand (name : String) (args : List String) : Effect
  | createdJob (ns : String) (job : Job) : Effect
deriving DecidableEq, Repr

/-- Environment of external collaborators: the job record store
(`kubeClient.BatchV1().Jobs`), the declarative file store (`files.DirExists`,
`files.FileExists`, `yamls.LoadFile`, `filepath.Abs`), the command runner,
and the name normalizer (`naming.ToValidValue` from jx-helpers). Fallible
calls return `Except` with the collaborator's error message. -/
structure Env where
  listJobs : String → String → Except ListErr (List Job)
  dirExists : String → Except String Bool
  fileExists : String → Except String Bool
  loadJobFile : String → Except String Job
  absPath : String → Except String String
  runCommand : Command → Except String String
  createJob : String → Job → Except String Job
  toValidValue : String → String

/-- Go `filepath.Join` restricted to the clean, non-empty path segments the
launcher joins: concatenation with a single separator. -/
def filepathJoin (a b : String) : String := a ++ "/" ++ b

/-- Preferred configuration folder `<dir>/versionStream/git-operator`. -/
def versionStreamFolder (dir : String) : String :=
  filepathJoin (filepathJoin dir "versionStream") "git-operator"

/-- Fallback configuration folder `<dir>/.jx/git-operator`. -/
def jxFolder (dir : String) : String :=
  filepathJoin (filepathJoin dir ".jx") "git-operator"

/-- Go `trimLength`: the text unchanged when it already fits, otherwise its
leading `length` characters. -/
def trimLength (text : String) (length : Nat) : String :=
  if text.length ≤ length then text else { data := text.data.take length }

/-- Name assigned to the materialized job: the normalized repository name
trimmed to 20 characters, a hyphen, and the normalized sha trimmed to
`30 - len(prefix)` characters. -/
def jobResourceName (safeName safeSha : String) : String :=
  let pfx := trimLength safeName 20
  let maxShaLen := 30 - pfx.length
  pfx ++ "-" ++ trimLength safeSha maxShaLen

/-- Materialization step of `startNewJob`: assign the resource name and set
the three fixed labels (manager marker, repository, commit sha) on the
loaded template. A nil label map in Go is replaced by an empty one, which
the association-list model already represents. -/
def materializeJob (resource : Job) (safeName safeSha : String) : Job :=
  { resource with
    name := jobResourceName safeName safeSha
    labels :=
      setLabel
        (setLabel
          (setLabel resource.labels DefaultSelectorKey DefaultSelectorValue)
          RepositoryLabelKey safeName)
        CommitShaLabelKey safeSha }

/-- Go `IsJobActive`: the job has neither succeeded nor failed yet. -/
def IsJobActive (r : Job) : Bool :=
  r.status.succeeded == 0 && r.status.failed == 0

/-- Outcome of the admission decision inside `Launch`. -/
inductive Decision where
  | skip : Decision
  | proceed : Decision
deriving DecidableEq, Repr

/-- Decision core of `Launch` (lines 85-107): partition the listed jobs into
those labelled with this commit sha and those still active; skip when a job
for this sha exists, otherwise skip when any job is active, otherwise
proceed. -/
def launchDecision (safeSha : String) (items : List Job) : Decision :=
  let jobsForSha := items.filter (fun r => getLabel r.labels CommitShaLabelKey == safeSha)
  let activeJobs := items.filter IsJobActive
  if jobsForSha.length == 0 then
    if activeJobs.length > 0 then Decision.skip else Decision.proceed
  else Decision.skip

/-- Auxiliary resource apply step of `startNewJob` (lines 145-168): skipped
entirely when `NoResourceApply` is set; otherwise, when a `resources`
directory exists beside the job file, run `kubectl apply -f <absDir>` and
abort the dispatch on failure. -/
def applyResources (env : Env) (opts : LaunchOptions) (folder safeName : String) :
    Except LaunchErr Unit × List Effect :=
  if opts.noResourceApply then (Except.ok (), [])
  else
    let resourcesDir := filepathJoin folder "resources"
    match env.dirExists resourcesDir with
    | Except.error msg => (Except.error (LaunchErr.resourcesDirCheckFailed resourcesDir safeName msg), [])
    | Except.ok ex =>
      if ex then
        match env.absPath resourcesDir with
        | Except.error msg => (Except.error (LaunchErr.absFailed resourcesDir msg), [])
        | Except.ok absDir =>
          let cmd : Command := ⟨"kubectl", ["apply", "-f", absDir]⟩
          match env.runCommand cmd with
          | Except.error msg =>
            (Except.error (LaunchErr.applyFailed absDir msg), [Effect.ranCommand cmd.name cmd.args])
          | Except.ok _ => (Except.ok (), [Effect.ranCommand cmd.name cmd.args])
      else (Except.ok (), [])

/-- Go `startNewJob` (lines 116-190): resolve the configuration folder
(preferring `versionStream/git-operator`, falling back to
`.jx/git-operator`), require `job.yaml` to exist, load it, run the optional
resource apply step, materialize name and labels, and create the job. -/
def startNewJob (env : Env) (opts : LaunchOptions) (ns safeName safeSha : String) :
    Except LaunchErr (List Job) × List Effect :=
  let vsFolder := versionStreamFolder opts.dir
  match env.dirExists vsFolder with
  | Except.error msg => (Except.error (LaunchErr.dirCheckFailed vsFolder msg), [])
  | Except.ok vsExists =>
    let folder := if vsExists then vsFolder else jxFolder opts.dir
    let fileName := filepathJoin folder "job.yaml"
    match env.fileExists fileName with
    | Except.error msg => (Except.error (LaunchErr.fileCheckFailed fileName safeName msg), [])
    | Except.ok fileEx =>
      if !fileEx then (Except.error (LaunchErr.notConfigured safeName fileName), [])
      else
        match env.loadJobFile fileName with
        | Except.error msg =>
          (Except.error (LaunchErr.loadFailed fileName safeName msg), [Effect.loadedFile fileName])
        | Except.ok resource =>
          match applyResources env opts folder safeName with
          | (Except.error e, tr1) => (Except.error e, Effect.loadedFile fileName :: tr1)
          | (Except.ok _, tr1) =>
            let resource2 := materializeJob resource safeName safeSha
            match env.createJob ns resource2 with
            | Except.error msg =>
              (Except.error (LaunchErr.createFailed resource2.name ns msg),
                Effect.loadedFile fileName :: (tr1 ++ [Effect.createdJob ns resource2]))
            | Except.ok r2 =>
              (Except.ok [r2],
                Effect.loadedFile fileName :: (tr1 ++ [Effect.createdJob ns resource2]))

/-- Namespace a dispatch cycle operates in: the trigger's namespace override
when non-empty, otherwise the namespace the launcher was constructed with. -/
def launchNs (cfg : ClientCfg) (opts : LaunchOptions) : String :=
  if opts.repository.ns == "" then cfg.ns else opts.repository.ns

/-- Label selector used for the list query:
`<base selector>,<repository key>=<safe name>`. -/
def launchSelector (cfg : ClientCfg) (safeName : String) : String :=
  cfg.selector ++ "," ++ RepositoryLabelKey ++ "=" ++ safeName

/-- Tail of `Launch` once the listed items are in hand: skip returns
`(nil, nil)`, proceed runs `startNewJob`. -/
def launchOnItems (env : Env) (opts : LaunchOptions) (ns safeName safeSha : String)
    (items : List Job) (tr : List Effect) : Except LaunchErr (List Job) × List Effect :=
  match launchDecision safeSha items with
  | Decision.skip => (Except.ok [], tr)
  | Decision.proceed =>
    let st := startNewJob env opts ns safeName safeSha
    (st.1, tr ++ st.2)

/-- Go `Launch` (lines 66-108): normalize the repository name and sha, list
the existing jobs for this repository in the resolved namespace (treating a
"not found" list result as an empty list), then decide and, on proceed,
start a new job. -/
def Launch (env : Env) (cfg : ClientCfg) (opts : LaunchOptions) :
    Except LaunchErr (List Job) × List Effect :=
  let ns := launchNs cfg opts
  let safeName := env.toValidValue opts.repository.name
  let safeSha := env.toValidValue opts.gitSHA
  let selector := launchSelector cfg safeName
  let tr0 : List Effect := [Effect.listedJobs ns selector]
  match env.listJobs ns selector with
  | Except.error ListErr.notFound => launchOnItems env opts ns safeName safeSha [] tr0
  | Except.error (ListErr.other msg) => (Except.error (LaunchErr.listFailed ns selector msg), tr0)
  | Except.ok items => launchOnItems env opts ns safeName safeSha items tr0

/-- Jobs submitted to the store during a trace. -/
def createdJobsOf (tr : List Effect) : List Job :=
  tr.filterMap fun e =>
    match e with
    | Effect.createdJob _ j => some j
    | _ => none

/-- External commands run during a trace. -/
def ranCommandsOf (tr : List Effect) : List (String × List String) :=
  tr.filterMap fun e =>
    match e with
    | Effect.ranCommand n a => some (n, a)
    | _ => none

/-- Files the template loader read during a trace. -/
def loadedFilesOf (tr : List Effect) : List String :=
  tr.filterMap fun e =>
    match e with
    | Effect.loadedFile f => some f
    | _ => none

/-- Effect-level namespace check: list and create calls target `ns`; the
other effects carry no namespace. -/
def effectNsOk (ns : String) (e : Effect) : Bool :=
  match e with
  | Effect.listedJobs s _ => s == ns
  | Effect.createdJob s _ => s == ns
  | _ => true

/-! ### Concrete fixtures used by the witnesses -/

def testStatusActive : JobStatus := ⟨0, 0⟩

def testStatusDone : JobStatus := ⟨1, 0⟩

/-- An existing job labelled with the commit sha `abc123`, still active. -/
def testJobForSha : Job := ⟨"job-1", [(CommitShaLabelKey, "abc123")], testStatusActive, ""⟩

/-- An existing active job for a different commit `def456`. -/
def testJobOtherActive : Job := ⟨"job-2", [(CommitShaLabelKey, "def456")], testStatusActive, ""⟩

/-- An existing completed job for a different commit `def456`. -/
def testJobOtherDone : Job := ⟨"job-3", [(CommitShaLabelKey, "def456")], testStatusDone, ""⟩

/-- A job template carrying one unrelated label. -/
def testTemplate : Job := ⟨"", [("team", "payments")], ⟨0, 0⟩, "podspec"⟩

def testOpts : LaunchOptions := ⟨⟨"myrepo", ""⟩, "abc123", "/workspace/repo", false⟩

def testCfg : ClientCfg := ⟨"jx", "git-operator.jenkins.io/kind=git-operator"⟩

/-- Environment whose job store holds `items`, whose checkout has a
`versionStream/git-operator` folder with a `job.yaml` but no `resources`
directory, and whose normalizer is the identity. -/
def testEnv (items : List Job) : Env :=
  { listJobs := fun _ _ => Except.ok items
    dirExists := fun p => Except.ok (p == versionStreamFolder testOpts.dir)
    fileExists := fun _ => Except.ok true
    loadJobFile := fun _ => Except.ok testTemplate
    absPath := fun p => Except.ok p
    runCommand := fun _ => Except.ok ""
    createJob := fun _ j => Except.ok j
    toValidValue := fun s => s }

/-- Trigger options with the resource apply step disabled. -/
def testOptsNoApply : LaunchOptions := ⟨⟨"myrepo", ""⟩, "abc123", "/workspace/repo", true⟩

/-- Environment where every directory (including `resources`) exists and the
command runner fails. -/
def testEnvApplyFail : Env :=
  { listJobs := fun _ _ => Except.ok []
    dirExists := fun _ => Except.ok true
    fileExists := fun _ => Except.ok true
    loadJobFile := fun _ => Except.ok testTemplate
    absPath := fun p => Except.ok p
    runCommand := fun _ => Except.error "boom"
    createJob := fun _ j => Except.ok j
    toValidValue := fun s => s }

/-- Environment whose checkout contains no `job.yaml` at all. -/
def testEnvNoFile : Env :=
  { listJobs := fun _ _ => Except.ok []
    dirExists := fun _ => Except.ok true
    fileExists := fun _ => Except.ok false
    loadJobFile := fun _ => Except.error "nofile"
    absPath := fun p => Except.ok p
    runCommand := fun _ => Except.ok ""
    createJob := fun _ j => Except.ok j
    toValidValue := fun s => s }

/-! ### Basic lemmas about the label map and the decision -/

theorem getLabel_setLabel_same (labels : List (String × String)) (key value : String) :
    getLabel (setLabel labels key value) key = value := by
  simp [getLabel, setLabel]

theorem find?_filter_ne (labels : List (String × String)) (key other : String)
    (h : other ≠ key) :
    (labels.filter (fun p => !(p.1 == key))).find? (fun p => p.1 == other) =
      labels.find? (fun p => p.1 == other) := by
  have hk : (key == other) = false := by
    simp only [beq_eq_false_iff_ne]
    exact Ne.symm h
  induction labels with
  | nil => rfl
  | cons a tl ih =>
    by_cases ha : a.1 = key
    · simp [List.filter_cons, ha, List.find?_cons, hk, ih]
    · by_cases hb : a.1 = other
      · simp [List.filter_cons, ha, hb, List.find?_cons, h]
      · simp [List.filter_cons, ha, List.find?_cons, hb, ih]

theorem getLabel_setLabel_other (labels : List (String × String)) (key value other : String)
    (h : other ≠ key) :
    getLabel (setLabel labels key value) other = getLabel labels other := by
  have hk : (key == other) = false := by
    simp only [beq_eq_false_iff_ne]
    exact Ne.symm h
  simp [getLabel, setLabel, List.find?_cons, hk, find?_filter_ne labels key other h]

theorem launchDecision_skip_of_matching (safeSha : String) (items : List Job) (r : Job)
    (hr : r ∈ items) (hl : getLabel r.labels CommitShaLabelKey = safeSha) :
    launchDecision safeSha items = Decision.skip := by
  have hmem : r ∈ items.filter (fun r => getLabel r.labels CommitShaLabelKey == safeSha) :=
    List.mem_filter.2 ⟨hr, by simp [hl]⟩
  have hne : (items.filter (fun r => getLabel r.labels CommitShaLabelKey == safeSha)).length ≠ 0 := by
    intro h0
    rw [List.length_eq_zero] at h0
    rw [h0] at hmem
    exact absurd hmem (List.not_mem_nil r)
  unfold launchDecision
  simp [hne]

theorem launchDecision_of_no_matching (safeSha : String) (items : List Job)
    (hnone : ∀ r ∈ items, getLabel r.labels CommitShaLabelKey ≠ safeSha) :
    launchDecision safeSha items =
      (if (items.filter IsJobActive).length > 0 then Decision.skip else Decision.proceed) := by
  have h0 : items.filter (fun r => getLabel r.labels CommitShaLabelKey == safeSha) = [] :=
    List.filter_eq_nil_iff.2 (fun r hr => by simp [hnone r hr])
  unfold launchDecision
  simp [h0]

/-! ### Lemmas about `trimLength` -/

theorem trimLength_eq_take (s : String) (n : Nat) :
    trimLength s n = String.mk (s.data.take n) := by
  unfold trimLength
  split
  · next h =>
    have hs : s.data.take n = s.data := List.take_of_length_le h
    rw [hs]
  · rfl

theorem trimLength_length (s : String) (n : Nat) :
    (trimLength s n).length = min n s.length := by
  rw [trimLength_eq_take]
  show (s.data.take n).length = min n s.length
  rw [List.length_take]
  rfl

/-! ### Trace lemmas for the apply step and `startNewJob` -/

theorem createdJobsOf_applyResources (env : Env) (opts : LaunchOptions) (folder sn : String) :
    createdJobsOf (applyResources env opts folder sn).2 = [] := by
  unfold applyResources
  simp only []
  split
  · rfl
  · split
    · rfl
    · split
      · split
        · rfl
        · split
          · simp [createdJobsOf]
          · simp [createdJobsOf]
      · rfl

theorem loadedFilesOf_applyResources (env : Env) (opts : LaunchOptions) (folder sn : String) :
    loadedFilesOf (applyResources env opts folder sn).2 = [] := by
  unfold applyResources
  simp only []
  split
  · rfl
  · split
    · rfl
    · split
      · split
        · rfl
        · split
          · simp [loadedFilesOf]
          · simp [loadedFilesOf]
      · rfl

theorem allNs_applyResources (env : Env) (opts : LaunchOptions) (folder sn ns : String) :
    ((applyResources env opts folder sn).2.all (effectNsOk ns)) = true := by
  unfold applyResources
  simp only []
  split
  · rfl
  · split
    · rfl
    · split
      · split
        · rfl
        · split
          · simp [effectNsOk]
          · simp [effectNsOk]
      · rfl

theorem createdJobsOf_applyResources_eq (env : Env) (opts : LaunchOptions) (folder sn : String)
    (res : Except LaunchErr Unit) (tr : List Effect)
    (h : applyResources env opts folder sn = (res, tr)) : createdJobsOf tr = [] := by
  have h2 : tr = (applyResources env opts folder sn).2 := by rw [h]
  rw [h2]
  exact createdJobsOf_applyResources env opts folder sn

theorem loadedFilesOf_applyResources_eq (env : Env) (opts : LaunchOptions) (folder sn : String)
    (res : Except LaunchErr Unit) (tr : List Effect)
    (h : applyResources env opts folder sn = (res, tr)) : loadedFilesOf tr = [] := by
  have h2 : tr = (applyResources env opts folder sn).2 := by rw [h]
  rw [h2]
  exact loadedFilesOf_applyResources env opts folder sn

theorem allNs_applyResources_eq (env : Env) (opts : LaunchOptions) (folder sn ns : String)
    (res : Except LaunchErr Unit) (tr : List Effect)
    (h : applyResources env opts folder sn = (res, tr)) : (tr.all (effectNsOk ns)) = true := by
  have h2 : tr = (applyResources env opts folder sn).2 := by rw [h]
  rw [h2]
  exact allNs_applyResources env opts folder sn ns

theorem startNewJob_created_spec (env : Env) (opts : LaunchOptions) (ns sn ss : String) :
    (createdJobsOf (startNewJob env opts ns sn ss).2).length ≤ 1 ∧
    ∀ j ∈ createdJobsOf (startNewJob env opts ns sn ss).2,
      getLabel j.labels CommitShaLabelKey = ss := by
  unfold startNewJob
  simp only []
  split
  · simp [createdJobsOf]
  · split
    · simp [createdJobsOf]
    · split
      · simp [createdJobsOf]
      · split
        · simp [createdJobsOf]
        · next resource heq =>
          split
          · next e tr1 happ =>
            have h1 := createdJobsOf_applyResources_eq env opts _ sn _ _ happ
            simp only [createdJobsOf, List.filterMap_cons] at h1 ⊢
            simp [h1]
          · next v tr1 happ =>
            have h1 := createdJobsOf_applyResources_eq env opts _ sn _ _ happ
            split
            · simp only [createdJobsOf, List.filterMap_cons, List.filterMap_append] at h1 ⊢
              simp [h1, materializeJob, getLabel_setLabel_same]
            · simp only [createdJobsOf, List.filterMap_cons, List.filterMap_append] at h1 ⊢
              simp [h1, materializeJob, getLabel_setLabel_same]

theorem startNewJob_loadedFiles (env : Env) (opts : LaunchOptions) (ns sn ss : String) (b : Bool)
    (h1 : env.dirExists (versionStreamFolder opts.dir) = Except.ok b)
    (h2 : env.fileExists
        (filepathJoin (if b then versionStreamFolder opts.dir else jxFolder opts.dir) "job.yaml") =
      Except.ok true) :
    loadedFilesOf (startNewJob env opts ns sn ss).2 =
      [filepathJoin (if b then versionStreamFolder opts.dir else jxFolder opts.dir) "job.yaml"] := by
  unfold startNewJob
  simp only []
  simp only [h1]
  simp only [h2]
  split
  · next hcontra => simp at hcontra
  · split
    · simp [loadedFilesOf]
    · split
      · next e tr1 happ =>
        have h3 := loadedFilesOf_applyResources_eq env opts _ sn _ _ happ
        simp only [loadedFilesOf, List.filterMap_cons] at h3 ⊢
        simp [h3]
      · next v tr1 happ =>
        have h3 := loadedFilesOf_applyResources_eq env opts _ sn _ _ happ
        split
        · simp only [loadedFilesOf, List.filterMap_cons, List.filterMap_append] at h3 ⊢
          simp [h3]
        · simp only [loadedFilesOf, List.filterMap_cons, List.filterMap_append] at h3 ⊢
          simp [h3]

theorem startNewJob_allNs (env : Env) (opts : LaunchOptions) (ns sn ss : String) :
    ((startNewJob env opts ns sn ss).2.all (effectNsOk ns)) = true := by
  unfold startNewJob
  simp only []
  split
  · rfl
  · split
    · rfl
    · split
      · rfl
      · split
        · simp [effectNsOk]
        · next resource heq =>
          split
          · next e tr1 happ =>
            have h3 := allNs_applyResources_eq env opts _ sn ns _ _ happ
            simp [effectNsOk, h3]
          · next v tr1 happ =>
            have h3 := allNs_applyResources_eq env opts _ sn ns _ _ happ
            split
            · simp [effectNsOk, h3, List.all_append]
            · simp [effectNsOk, h3, List.all_append]

theorem applyResources_noApply (env : Env) (opts : LaunchOptions) (folder sn : String)
    (h : opts.noResourceApply = true) :
    applyResources env opts folder sn = (Except.ok (), []) := by
  unfold applyResources
  simp [h]

theorem applyResources_runFail (env : Env) (opts : LaunchOptions) (folder sn absDir msg : String)
    (hflag : opts.noResourceApply = false)
    (hdir : env.dirExists (filepathJoin folder "resources") = Except.ok true)
    (habs : env.absPath (filepathJoin folder "resources") = Except.ok absDir)
    (hrun : env.runCommand ⟨"kubectl", ["apply", "-f", absDir]⟩ = Except.error msg) :
    applyResources env opts folder sn =
      (Except.error (LaunchErr.applyFailed absDir msg),
        [Effect.ranCommand "kubectl" ["apply", "-f", absDir]]) := by
  unfold applyResources
  simp [hflag, hdir, habs, hrun]

theorem ranCommandsOf_startNewJob_noApply (env : Env) (opts : LaunchOptions) (ns sn ss : String)
    (h : opts.noResourceApply = true) :
    ranCommandsOf (startNewJob env opts ns sn ss).2 = [] := by
  have hap : ∀ folder, applyResources env opts folder sn = (Except.ok (), []) :=
    fun folder => applyResources_noApply env opts folder sn h
  unfold startNewJob
  simp only []
  simp only [hap]
  split
  · rfl
  · split
    · rfl
    · split
      · rfl
      · split
        · simp [ranCommandsOf]
        · split
          · simp [ranCommandsOf]
          · simp [ranCommandsOf]

theorem Launch_eq_launchOnItems (env : Env) (cfg : ClientCfg) (opts : LaunchOptions)
    (items : List Job)
    (h : env.listJobs (launchNs cfg opts)
        (launchSelector cfg (env.toValidValue opts.repository.name)) = Except.ok items) :
    Launch env cfg opts =
      launchOnItems env opts (launchNs cfg opts) (env.toValidValue opts.repository.name)
        (env.toValidValue opts.gitSHA) items
        [Effect.listedJobs (launchNs cfg opts)
          (launchSelector cfg (env.toValidValue opts.repository.name))] := by
  unfold Launch
  simp only []
  rw [h]

theorem launchOnItems_skip (env : Env) (opts : LaunchOptions) (ns sn ss : String)
    (items : List Job) (tr : List Effect) (h : launchDecision ss items = Decision.skip) :
    launchOnItems env opts ns sn ss items tr = (Except.ok [], tr) := by
  unfold launchOnItems
  rw [h]

theorem launchOnItems_proceed (env : Env) (opts : LaunchOptions) (ns sn ss : String)
    (items : List Job) (tr : List Effect) (h : launchDecision ss items = Decision.proceed) :
    launchOnItems env opts ns sn ss items tr =
      ((startNewJob env opts ns sn ss).1, tr ++ (startNewJob env opts ns sn ss).2) := by
  unfold launchOnItems
  rw [h]

theorem createdJobsOf_append (a b : List Effect) :
    createdJobsOf (a ++ b) = createdJobsOf a ++ createdJobsOf b := by
  simp [createdJobsOf]

theorem ranCommandsOf_append (a b : List Effect) :
    ranCommandsOf (a ++ b) = ranCommandsOf a ++ ranCommandsOf b := by
  simp [ranCommandsOf]

theorem ranCommandsOf_launchOnItems_noApply (env : Env) (opts : LaunchOptions)
    (ns sn ss : String) (items : List Job) (tr : List Effect)
    (h : opts.noResourceApply = true) (htr : ranCommandsOf tr = []) :
    ranCommandsOf (launchOnItems env opts ns sn ss items tr).2 = [] := by
  unfold launchOnItems
  split
  · simpa using htr
  · have h2 := ranCommandsOf_startNewJob_noApply env opts ns sn ss h
    simp only []
    rw [ranCommandsOf_append, htr, h2]
    rfl

theorem allNs_launchOnItems (env : Env) (opts : LaunchOptions) (ns sn ss : String)
    (items : List Job) (tr : List Effect) (htr : (tr.all (effectNsOk ns)) = true) :
    ((launchOnItems env opts ns sn ss items tr).2.all (effectNsOk ns)) = true := by
  unfold launchOnItems
  split
  · simpa using htr
  · simp only []
    rw [List.all_append]
    simp [htr, startNewJob_allNs]

theorem startNewJob_ok_created (env : Env) (opts : LaunchOptions) (ns sn ss : String)
    (r : List Job) (h : (startNewJob env opts ns sn ss).1 = Except.ok r) :
    ∃ j, createdJobsOf (startNewJob env opts ns sn ss).2 = [j] := by
  revert h
  unfold startNewJob
  simp only []
  split
  · intro h; exact absurd h (by simp)
  · split
    · intro h; exact absurd h (by simp)
    · split
      · intro h; exact absurd h (by simp)
      · split
        · intro h; exact absurd h (by simp)
        · next resource heqL =>
          split
          · intro h; exact absurd h (by simp)
          · next v tr1 happ =>
            have h1 := createdJobsOf_applyResources_eq env opts _ _ _ _ happ
            split
            · intro h; exact absurd h (by simp)
            · intro h
              refine ⟨materializeJob resource sn ss, ?_⟩
              simp only [createdJobsOf, List.filterMap_cons, List.filterMap_append] at h1 ⊢
              simp [h1]

/-! ### The claims -/

/-- C1: whenever some listed record's commit label equals the normalized
commit id, the dispatch decision is `skip` — no matter how many other
records exist and whether any is active — and the cycle returns without
creating any job. -/
theorem claim_C1 (env : Env) (cfg : ClientCfg) (opts : LaunchOptions) (items : List Job) (r : Job)
    (h : env.listJobs (launchNs cfg opts)
        (launchSelector cfg (env.toValidValue opts.repository.name)) = Except.ok items)
    (hr : r ∈ items)
    (hl : getLabel r.labels CommitShaLabelKey = env.toValidValue opts.gitSHA) :
    launchDecision (env.toValidValue opts.gitSHA) items = Decision.skip ∧
    Launch env cfg opts =
      (Except.ok [], [Effect.listedJobs (launchNs cfg opts)
        (launchSelector cfg (env.toValidValue opts.repository.name))]) ∧
    createdJobsOf (Launch env cfg opts).2 = [] := by
  have hd := launchDecision_skip_of_matching (env.toValidValue opts.gitSHA) items r hr hl
  refine ⟨hd, ?_, ?_⟩
  · rw [Launch_eq_launchOnItems env cfg opts items h, launchOnItems_skip _ _ _ _ _ _ _ hd]
  · rw [Launch_eq_launchOnItems env cfg opts items h, launchOnItems_skip _ _ _ _ _ _ _ hd]
    simp [createdJobsOf]

theorem claim_C1_witness :
    launchDecision "abc123" [testJobForSha, testJobOtherActive, testJobOtherDone] = Decision.skip ∧
    Launch (testEnv [testJobForSha, testJobOtherActive, testJobOtherDone]) testCfg testOpts =
      (Except.ok [], [Effect.listedJobs "jx" (launchSelector testCfg "myrepo")]) ∧
    createdJobsOf
      ((Launch (testEnv [testJobForSha, testJobOtherActive, testJobOtherDone]) testCfg testOpts).2) =
      [] :=
  claim_C1 (testEnv [testJobForSha, testJobOtherActive, testJobOtherDone]) testCfg testOpts
    [testJobForSha, testJobOtherActive, testJobOtherDone] testJobForSha rfl
    (by simp) (by decide)

/-- C2: when no listed record carries the normalized commit id, an active
record forces `skip`, while all records being finished (succeeded or failed
non-zero) — in particular an empty list — yields `proceed`, in which case
the cycle hands over to `startNewJob` to create the job. -/
theorem claim_C2 (safeSha : String) (items : List Job)
    (hnone : ∀ r ∈ items, getLabel r.labels CommitShaLabelKey ≠ safeSha) :
    ((∃ r ∈ items, IsJobActive r = true) → launchDecision safeSha items = Decision.skip) ∧
    ((∀ r ∈ items, IsJobActive r = false) → launchDecision safeSha items = Decision.proceed) ∧
    (∀ env opts ns sn tr, launchDecision safeSha items = Decision.proceed →
      launchOnItems env opts ns sn safeSha items tr =
        ((startNewJob env opts ns sn safeSha).1, tr ++ (startNewJob env opts ns sn safeSha).2)) := by
  have hbase := launchDecision_of_no_matching safeSha items hnone
  refine ⟨?_, ?_, ?_⟩
  · rintro ⟨r, hr, hact⟩
    have hmem : r ∈ items.filter IsJobActive := List.mem_filter.2 ⟨hr, hact⟩
    have hlen : (items.filter IsJobActive).length > 0 :=
      List.length_pos.2 (fun h0 => by rw [h0] at hmem; exact absurd hmem (List.not_mem_nil r))
    rw [hbase, if_pos hlen]
  · intro hall
    have h0 : items.filter IsJobActive = [] :=
      List.filter_eq_nil_iff.2 (fun r hr => by simp [hall r hr])
    rw [hbase, h0]
    simp
  · intro env opts ns sn tr hp
    exact launchOnItems_proceed env opts ns sn safeSha items tr hp

theorem claim_C2_witness :
    ((∃ r ∈ [testJobOtherActive], IsJobActive r = true) →
      launchDecision "abc123" [testJobOtherActive] = Decision.skip) ∧
    ((∀ r ∈ [testJobOtherActive], IsJobActive r = false) →
      launchDecision "abc123" [testJobOtherActive] = Decision.proceed) ∧
    (∀ env opts ns sn tr, launchDecision "abc123" [testJobOtherActive] = Decision.proceed →
      launchOnItems env opts ns sn "abc123" [testJobOtherActive] tr =
        ((startNewJob env opts ns sn "abc123").1,
          tr ++ (startNewJob env opts ns sn "abc123").2)) :=
  claim_C2 "abc123" [testJobOtherActive] (by decide)

/-- C3: the materialized name is the first `min 20 (length)` characters of
the normalized repository name, a hyphen, then the first
`30 - (that prefix length)` characters of the normalized commit id, and its
total length never exceeds 31. -/
theorem claim_C3 (safeName safeSha : String) :
    jobResourceName safeName safeSha =
      String.mk (safeName.data.take 20) ++ "-" ++
        String.mk (safeSha.data.take (30 - min 20 safeName.length)) ∧
    (jobResourceName safeName safeSha).length ≤ 31 := by
  have h1 : (trimLength safeName 20).length = min 20 safeName.length :=
    trimLength_length safeName 20
  constructor
  · unfold jobResourceName
    simp only []
    rw [h1, trimLength_eq_take safeName 20, trimLength_eq_take safeSha _]
  · have h2 : (trimLength safeSha (30 - (trimLength safeName 20).length)).length =
      min (30 - (trimLength safeName 20).length) safeSha.length :=
      trimLength_length safeSha _
    unfold jobResourceName
    simp only []
    rw [String.length_append, String.length_append, h2, h1]
    have hd : ("-" : String).length = 1 := rfl
    rw [hd]
    omega

/-- C4: one dispatch cycle never creates more than one job; if a listed
record already carries this commit's label nothing is created; any job the
cycle does create is labelled with the normalized commit id; and a
successful cycle that returns objects created exactly one job. -/
theorem claim_C4 (env : Env) (cfg : ClientCfg) (opts : LaunchOptions) (items : List Job)
    (h : env.listJobs (launchNs cfg opts)
        (launchSelector cfg (env.toValidValue opts.repository.name)) = Except.ok items) :
    (createdJobsOf (Launch env cfg opts).2).length ≤ 1 ∧
    ((∃ r ∈ items, getLabel r.labels CommitShaLabelKey = env.toValidValue opts.gitSHA) →
      createdJobsOf (Launch env cfg opts).2 = []) ∧
    (∀ j ∈ createdJobsOf (Launch env cfg opts).2,
      getLabel j.labels CommitShaLabelKey = env.toValidValue opts.gitSHA) ∧
    (∀ r, (Launch env cfg opts).1 = Except.ok r → r ≠ [] →
      ∃ j, createdJobsOf (Launch env cfg opts).2 = [j]) := by
  rw [Launch_eq_launchOnItems env cfg opts items h]
  cases hd : launchDecision (env.toValidValue opts.gitSHA) items with
  | skip =>
    rw [launchOnItems_skip _ _ _ _ _ _ _ hd]
    refine ⟨?_, ?_, ?_, ?_⟩
    · simp [createdJobsOf]
    · simp [createdJobsOf]
    · simp [createdJobsOf]
    · intro r hr hne
      have hr2 : r = [] := by simpa using hr.symm
      exact absurd hr2 hne
  | proceed =>
    rw [launchOnItems_proceed _ _ _ _ _ _ _ hd]
    have hspec := startNewJob_created_spec env opts (launchNs cfg opts)
      (env.toValidValue opts.repository.name) (env.toValidValue opts.gitSHA)
    have htr : createdJobsOf
        ([Effect.listedJobs (launchNs cfg opts)
          (launchSelector cfg (env.toValidValue opts.repository.name))] ++
          (startNewJob env opts (launchNs cfg opts) (env.toValidValue opts.repository.name)
            (env.toValidValue opts.gitSHA)).2) =
        createdJobsOf (startNewJob env opts (launchNs cfg opts)
          (env.toValidValue opts.repository.name) (env.toValidValue opts.gitSHA)).2 := by
      rw [createdJobsOf_append]
      simp [createdJobsOf]
    refine ⟨?_, ?_, ?_, ?_⟩
    · rw [htr]
      exact hspec.1
    · rintro ⟨r, hr, hl⟩
      have hskip := launchDecision_skip_of_matching (env.toValidValue opts.gitSHA) items r hr hl
      rw [hd] at hskip
      exact absurd hskip (by decide)
    · rw [htr]
      exact hspec.2
    · intro r hr hne
      simp only [] at hr htr ⊢
      rw [htr]
      exact startNewJob_ok_created env opts _ _ _ r hr

theorem claim_C4_witness :
    (createdJobsOf (Launch (testEnv [testJobOtherDone]) testCfg testOpts).2).length ≤ 1 ∧
    ((∃ r ∈ [testJobOtherDone],
        getLabel r.labels CommitShaLabelKey =
          (testEnv [testJobOtherDone]).toValidValue testOpts.gitSHA) →
      createdJobsOf (Launch (testEnv [testJobOtherDone]) testCfg testOpts).2 = []) ∧
    (∀ j ∈ createdJobsOf (Launch (testEnv [testJobOtherDone]) testCfg testOpts).2,
      getLabel j.labels CommitShaLabelKey =
        (testEnv [testJobOtherDone]).toValidValue testOpts.gitSHA) ∧
    (∀ r, (Launch (testEnv [testJobOtherDone]) testCfg testOpts).1 = Except.ok r → r ≠ [] →
      ∃ j, createdJobsOf (Launch (testEnv [testJobOtherDone]) testCfg testOpts).2 = [j]) :=
  claim_C4 (testEnv [testJobOtherDone]) testCfg testOpts [testJobOtherDone] rfl

/-- C5: the job template is loaded from
`<dir>/versionStream/git-operator/job.yaml` exactly when the
`versionStream/git-operator` directory exists (regardless of whether the
`.jx` location also exists), and from `<dir>/.jx/git-operator/job.yaml`
otherwise. -/
theorem claim_C5 (env : Env) (opts : LaunchOptions) (ns sn ss : String) (b : Bool)
    (h1 : env.dirExists (versionStreamFolder opts.dir) = Except.ok b)
    (h2 : env.fileExists
        (filepathJoin (if b then versionStreamFolder opts.dir else jxFolder opts.dir) "job.yaml") =
      Except.ok true) :
    loadedFilesOf (startNewJob env opts ns sn ss).2 =
      [filepathJoin (if b then versionStreamFolder opts.dir else jxFolder opts.dir) "job.yaml"] :=
  startNewJob_loadedFiles env opts ns sn ss b h1 h2

theorem claim_C5_witness :
    loadedFilesOf (startNewJob (testEnv []) testOpts "jx" "myrepo" "abc123").2 =
      [filepathJoin (if true then versionStreamFolder testOpts.dir else jxFolder testOpts.dir)
        "job.yaml"] :=
  claim_C5 (testEnv []) testOpts "jx" "myrepo" "abc123" true rfl rfl

/-- C6: materialization sets the managed-by marker, the repository label and
the commit label to their fixed values, and leaves the lookup of every
other key on the template unchanged. -/
theorem claim_C6 (resource : Job) (safeName safeSha key : String)
    (h1 : key ≠ DefaultSelectorKey) (h2 : key ≠ RepositoryLabelKey)
    (h3 : key ≠ CommitShaLabelKey) :
    getLabel (materializeJob resource safeName safeSha).labels DefaultSelectorKey =
      DefaultSelectorValue ∧
    getLabel (materializeJob resource safeName safeSha).labels RepositoryLabelKey = safeName ∧
    getLabel (materializeJob resource safeName safeSha).labels CommitShaLabelKey = safeSha ∧
    getLabel (materializeJob resource safeName safeSha).labels key =
      getLabel resource.labels key := by
  unfold materializeJob
  simp only []
  refine ⟨?_, ?_, ?_, ?_⟩
  · rw [getLabel_setLabel_other _ _ _ _ (by decide), getLabel_setLabel_other _ _ _ _ (by decide),
      getLabel_setLabel_same]
  · rw [getLabel_setLabel_other _ _ _ _ (by decide), getLabel_setLabel_same]
  · rw [getLabel_setLabel_same]
  · rw [getLabel_setLabel_other _ _ _ _ h3, getLabel_setLabel_other _ _ _ _ h2,
      getLabel_setLabel_other _ _ _ _ h1]

theorem claim_C6_witness :
    getLabel (materializeJob testTemplate "myrepo" "abc123").labels DefaultSelectorKey =
      DefaultSelectorValue ∧
    getLabel (materializeJob testTemplate "myrepo" "abc123").labels RepositoryLabelKey =
      "myrepo" ∧
    getLabel (materializeJob testTemplate "myrepo" "abc123").labels CommitShaLabelKey =
      "abc123" ∧
    getLabel (materializeJob testTemplate "myrepo" "abc123").labels "team" =
      getLabel testTemplate.labels "team" :=
  claim_C6 testTemplate "myrepo" "abc123" "team" (by decide) (by decide) (by decide)

/-- C7: with the disable flag set no external command is ever run during a
dispatch cycle, whatever the environment contains; with the flag unset and a
`resources` directory present, a failing apply command aborts `startNewJob`
with the apply error and no job is created. -/
theorem claim_C7 :
    (∀ env cfg opts, opts.noResourceApply = true →
      ranCommandsOf (Launch env cfg opts).2 = []) ∧
    (∀ env opts ns sn ss b folder absDir msg t,
      opts.noResourceApply = false →
      env.dirExists (versionStreamFolder opts.dir) = Except.ok b →
      folder = (if b then versionStreamFolder opts.dir else jxFolder opts.dir) →
      env.fileExists (filepathJoin folder "job.yaml") = Except.ok true →
      env.loadJobFile (filepathJoin folder "job.yaml") = Except.ok t →
      env.dirExists (filepathJoin folder "resources") = Except.ok true →
      env.absPath (filepathJoin folder "resources") = Except.ok absDir →
      env.runCommand ⟨"kubectl", ["apply", "-f", absDir]⟩ = Except.error msg →
      (startNewJob env opts ns sn ss).1 = Except.error (LaunchErr.applyFailed absDir msg) ∧
      createdJobsOf (startNewJob env opts ns sn ss).2 = []) := by
  constructor
  · intro env cfg opts h
    unfold Launch
    simp only []
    split
    · exact ranCommandsOf_launchOnItems_noApply env opts _ _ _ _ _ h (by simp [ranCommandsOf])
    · simp [ranCommandsOf]
    · exact ranCommandsOf_launchOnItems_noApply env opts _ _ _ _ _ h (by simp [ranCommandsOf])
  · intro env opts ns sn ss b folder absDir msg t hflag hb hfold hfile hload hres habs hrun
    subst hfold
    have happ := applyResources_runFail env opts _ sn absDir msg hflag hres habs hrun
    unfold startNewJob
    simp only []
    simp only [hb]
    simp only [hfile]
    split
    · next hcontra => simp at hcontra
    · simp only [hload]
      simp only [happ]
      exact ⟨trivial, by simp [createdJobsOf]⟩

theorem claim_C7_witness :
    ranCommandsOf (Launch (testEnv []) testCfg testOptsNoApply).2 = [] ∧
    ((startNewJob testEnvApplyFail testOpts "jx" "myrepo" "abc123").1 =
      Except.error (LaunchErr.applyFailed
        (filepathJoin (versionStreamFolder testOpts.dir) "resources") "boom") ∧
    createdJobsOf (startNewJob testEnvApplyFail testOpts "jx" "myrepo" "abc123").2 = []) :=
  ⟨claim_C7.1 (testEnv []) testCfg testOptsNoApply rfl,
    claim_C7.2 testEnvApplyFail testOpts "jx" "myrepo" "abc123" true
      (versionStreamFolder testOpts.dir)
      (filepathJoin (versionStreamFolder testOpts.dir) "resources") "boom" testTemplate
      rfl rfl rfl rfl rfl rfl rfl rfl⟩

/-- C8: a "not found" list result makes the cycle behave exactly as an empty
record set would, while any other list failure surfaces as a `listFailed`
error result, which is never an `ok` (skip or proceed) outcome. -/
theorem claim_C8 (env : Env) (cfg : ClientCfg) (opts : LaunchOptions) :
    (Launch { env with listJobs := fun _ _ => Except.error ListErr.notFound } cfg opts =
      Launch { env with listJobs := fun _ _ => Except.ok [] } cfg opts) ∧
    (∀ msg, env.listJobs (launchNs cfg opts)
        (launchSelector cfg (env.toValidValue opts.repository.name)) =
        Except.error (ListErr.other msg) →
      Launch env cfg opts =
        (Except.error (LaunchErr.listFailed (launchNs cfg opts)
            (launchSelector cfg (env.toValidValue opts.repository.name)) msg),
          [Effect.listedJobs (launchNs cfg opts)
            (launchSelector cfg (env.toValidValue opts.repository.name))]) ∧
      ∀ l : List Job, (Launch env cfg opts).1 ≠ Except.ok l) := by
  constructor
  · rfl
  · intro msg h
    have hmain : Launch env cfg opts =
        (Except.error (LaunchErr.listFailed (launchNs cfg opts)
            (launchSelector cfg (env.toValidValue opts.repository.name)) msg),
          [Effect.listedJobs (launchNs cfg opts)
            (launchSelector cfg (env.toValidValue opts.repository.name))]) := by
      unfold Launch
      simp only []
      rw [h]
    refine ⟨hmain, ?_⟩
    intro l
    rw [hmain]
    simp

theorem claim_C8_witness :
    (Launch { testEnv [] with listJobs := fun _ _ => Except.error ListErr.notFound } testCfg
        testOpts =
      Launch { testEnv [] with listJobs := fun _ _ => Except.ok [] } testCfg testOpts) ∧
    (∀ msg, (testEnv []).listJobs (launchNs testCfg testOpts)
        (launchSelector testCfg ((testEnv []).toValidValue testOpts.repository.name)) =
        Except.error (ListErr.other msg) →
      Launch (testEnv []) testCfg testOpts =
        (Except.error (LaunchErr.listFailed (launchNs testCfg testOpts)
            (launchSelector testCfg ((testEnv []).toValidValue testOpts.repository.name)) msg),
          [Effect.listedJobs (launchNs testCfg testOpts)
            (launchSelector testCfg ((testEnv []).toValidValue testOpts.repository.name))]) ∧
      ∀ l : List Job, (Launch (testEnv []) testCfg testOpts).1 ≠ Except.ok l) :=
  claim_C8 (testEnv []) testCfg testOpts

/-- C9: when the resolved `job.yaml` does not exist, `startNewJob` returns
the `notConfigured` error naming the repository and the missing file, an
outcome distinct from the parse-error and from the infrastructure-error
constructors. -/
theorem claim_C9 (env : Env) (opts : LaunchOptions) (ns sn ss : String) (b : Bool)
    (folder : String)
    (hb : env.dirExists (versionStreamFolder opts.dir) = Except.ok b)
    (hfold : folder = if b then versionStreamFolder opts.dir else jxFolder opts.dir)
    (hfile : env.fileExists (filepathJoin folder "job.yaml") = Except.ok false) :
    startNewJob env opts ns sn ss =
      (Except.error (LaunchErr.notConfigured sn (filepathJoin folder "job.yaml")), []) ∧
    (∀ f r m, LaunchErr.notConfigured sn (filepathJoin folder "job.yaml") ≠
      LaunchErr.loadFailed f r m) ∧
    (∀ f r m, LaunchErr.notConfigured sn (filepathJoin folder "job.yaml") ≠
      LaunchErr.fileCheckFailed f r m) ∧
    (∀ n s m, LaunchErr.notConfigured sn (filepathJoin folder "job.yaml") ≠
      LaunchErr.listFailed n s m) ∧
    (∀ n j m, LaunchErr.notConfigured sn (filepathJoin folder "job.yaml") ≠
      LaunchErr.createFailed n j m) := by
  subst hfold
  refine ⟨?_, ?_, ?_, ?_, ?_⟩
  · unfold startNewJob
    simp only []
    simp only [hb]
    simp only [hfile]
    simp
  · exact fun f r m h => LaunchErr.noConfusion h
  · exact fun f r m h => LaunchErr.noConfusion h
  · exact fun n s m h => LaunchErr.noConfusion h
  · exact fun n j m h => LaunchErr.noConfusion h

theorem claim_C9_witness :
    startNewJob testEnvNoFile testOpts "jx" "myrepo" "abc123" =
      (Except.error (LaunchErr.notConfigured "myrepo"
        (filepathJoin (if true then versionStreamFolder testOpts.dir else jxFolder testOpts.dir)
          "job.yaml")), []) ∧
    (∀ f r m, LaunchErr.notConfigured "myrepo"
        (filepathJoin (if true then versionStreamFolder testOpts.dir else jxFolder testOpts.dir)
          "job.yaml") ≠ LaunchErr.loadFailed f r m) ∧
    (∀ f r m, LaunchErr.notConfigured "myrepo"
        (filepathJoin (if true then versionStreamFolder testOpts.dir else jxFolder testOpts.dir)
          "job.yaml") ≠ LaunchErr.fileCheckFailed f r m) ∧
    (∀ n s m, LaunchErr.notConfigured "myrepo"
        (filepathJoin (if true then versionStreamFolder testOpts.dir else jxFolder testOpts.dir)
          "job.yaml") ≠ LaunchErr.listFailed n s m) ∧
    (∀ n j m, LaunchErr.notConfigured "myrepo"
        (filepathJoin (if true then versionStreamFolder testOpts.dir else jxFolder testOpts.dir)
          "job.yaml") ≠ LaunchErr.createFailed n j m) :=
  claim_C9 testEnvNoFile testOpts "jx" "myrepo" "abc123" true
    (if true then versionStreamFolder testOpts.dir else jxFolder testOpts.dir) rfl rfl rfl

/-- C10: every list query and every job creation a dispatch cycle performs
targets the namespace override when it is non-empty and the launcher's
constructed namespace otherwise. -/
theorem claim_C10 (env : Env) (cfg : ClientCfg) (opts : LaunchOptions) :
    ((Launch env cfg opts).2.all
      (effectNsOk (if opts.repository.ns == "" then cfg.ns else opts.repository.ns))) = true := by
  have hns : (if opts.repository.ns == "" then cfg.ns else opts.repository.ns) =
      launchNs cfg opts := rfl
  rw [hns]
  unfold Launch
  simp only []
  split
  · exact allNs_launchOnItems env opts _ _ _ _ _ (by simp [effectNsOk])
  · simp [effectNsOk]
  · exact allNs_launchOnItems env opts _ _ _ _ _ (by simp [effectNsOk])

end JxGitOperator
